import Mathlib

/-!
# Verification of the majic row-processing pipeline

Shallow embedding of the Go sources (`main.go`, `row.go`, `transport.go`) of
the majic spreadsheet price updater, together with theorems settling the
specification claims about it.

Conventions of the embedding:
* spreadsheet cell values (Go `any` decoded from JSON) are modelled by `Cell`;
  a Go type assertion `.(string)` succeeds exactly on `Cell.str`;
* rows are `List Cell`; an index beyond the row's length is "absent"
  (`getElem?` returns `none`), matching the Go length guards;
* time is modelled in integer seconds; `time.Parse(time.RFC3339, ·)` and the
  two remote services (scryfall GET + decode, sheets value update) are
  environment parameters (`RowEnv`), since they are external effects;
* `processRow` returns the ordered list of externally visible effects
  (HTTP GETs and cell writes that were attempted) together with its
  `error` result, mirroring the Go control flow statement by statement.
-/

namespace Majic

/-- A spreadsheet cell value: Go `any` as decoded from the sheets API.
A Go type assertion `v.(string)` succeeds exactly on `str`. -/
inductive Cell where
  | str (s : String)
  | boolean (b : Bool)
  | num (n : Int)
  deriving DecidableEq, Repr

/-- Go `v.(string)`: `some s` when the assertion succeeds, `none` otherwise. -/
def asString : Cell → Option String
  | .str s => some s
  | _ => none

/-- From row.go: `colName(col)`.  Go:
`if col < 26 { return string(byte(col) + 'A') }`
`return colName(col/26-1) + colName(col%26)`.
Columns are zero-based and non-negative, so `Nat` models the Go `int`. -/
def colName (col : Nat) : String :=
  if h : col < 26 then String.singleton (Char.ofNat (col + 65))
  else colName (col / 26 - 1) ++ colName (col % 26)
termination_by col
decreasing_by
  · have h26 : col / 26 < col := Nat.div_lt_self (by omega) (by omega)
    omega
  · have hm : col % 26 < 26 := Nat.mod_lt _ (by omega)
    omega

/-- From row.go: `cellName(row, col) = fmt.Sprintf("%s%d", colName(col), row+1)`.
Row and col are both zero-based. -/
def cellName (row col : Nat) : String :=
  colName col ++ toString (row + 1)

/-- One step of reading a column name as a bijective base-26 numeral
(A contributes 1, ..., Z contributes 26). -/
def colStep (acc : Nat) (c : Char) : Nat := acc * 26 + (c.toNat - 64)

/-- The 1-based bijective base-26 value of a column name (A=1, ..., Z=26,
AA=27, ...); used to state that `colName` round-trips. -/
def colVal (s : String) : Nat :=
  s.data.foldl colStep 0

/-- Zero-based inverse of `colName`. -/
def colNumber (s : String) : Nat := colVal s - 1

/-! ## URL construction (row.go lines 52-65)

Go builds `url.Values`, sets `exact` (always) and `set` (when the set code is
non-empty), and assigns `v.Encode()` to the query.  `Encode` emits the keys in
sorted order (`"exact" < "set"`) with each key and value passed through
`url.QueryEscape`: UTF-8 bytes that are ASCII alphanumerics or `-._~` stay,
a space becomes `+`, every other byte becomes `%XX` with upper-case hex. -/

/-- UTF-8 encoding of one scalar value, as the list of its byte values;
Go strings are handled byte by byte by `url.QueryEscape`. -/
def utf8Bytes (c : Char) : List Nat :=
  let n := c.toNat
  if n < 128 then [n]
  else if n < 2048 then [192 + n / 64, 128 + n % 64]
  else if n < 65536 then [224 + n / 4096, 128 + (n / 64) % 64, 128 + n % 64]
  else [240 + n / 262144, 128 + (n / 4096) % 64, 128 + (n / 64) % 64, 128 + n % 64]

/-- Upper-case hex digit, as used by Go's `%XX` escapes. -/
def hexUpper (n : Nat) : Char :=
  if n < 10 then Char.ofNat (48 + n) else Char.ofNat (55 + n)

/-- Bytes `url.QueryEscape` leaves unescaped: ASCII alphanumerics and
`-`, `.`, `_`, `~`. -/
def isQueryUnescaped (b : Nat) : Bool :=
  (48 ≤ b && b ≤ 57) || (65 ≤ b && b ≤ 90) || (97 ≤ b && b ≤ 122) ||
    b == 45 || b == 46 || b == 95 || b == 126

/-- `url.QueryEscape`: per UTF-8 byte, keep unescaped bytes, turn a space
into `+`, and `%XX`-escape the rest. -/
def queryEscape (s : String) : String :=
  s.data.foldl
    (fun acc c =>
      (utf8Bytes c).foldl
        (fun acc2 b =>
          if isQueryUnescaped b then acc2.push (Char.ofNat b)
          else if b == 32 then acc2.push '+'
          else acc2 ++ "%" |>.push (hexUpper (b / 16)) |>.push (hexUpper (b % 16)))
        acc)
    ""

/-- `url.Values.Encode` on an already-sorted list of key/value pairs:
`key=value` segments joined by `&`, each side query-escaped. -/
def encodeQuery : List (String × String) → String
  | [] => ""
  | [p] => queryEscape p.1 ++ "=" ++ queryEscape p.2
  | p :: q :: rest => queryEscape p.1 ++ "=" ++ queryEscape p.2 ++ "&" ++ encodeQuery (q :: rest)

/-- From main.go: `namedCardAPIEndpoint`; also the string parsed into
`rh.baseURL` in `run`. -/
def namedCardAPIEndpoint : String := "https://api.scryfall.com/cards/named"

/-- The URL string `u.String()` produced by row.go lines 52-65: the base URL
with the encoded query attached.  `exact` is always set; `set` is set exactly
when the set code is non-empty.  (`Encode` sorts keys, and
`"exact" < "set"`.) -/
def buildURL (cardName setCode : String) : String :=
  namedCardAPIEndpoint ++ "?" ++
    encodeQuery (if setCode == "" then [("exact", cardName)]
                 else [("exact", cardName), ("set", setCode)])

/-! ## The row handler (row.go)

`rowHandler` carries the sheet data and the five column indices.  The
external effects — `time.Parse`, the scryfall GET + JSON decode, the two
sheet `Update` calls and `time.Now` — are supplied by a `RowEnv`.  Times are
integer seconds. -/

/-- From row.go: `pricesObj` — the `prices` field of a scryfall response. -/
structure PricesObj where
  usd : String
  usd_foil : String
  usd_etched : String
  deriving DecidableEq, Repr

/-- From row.go: `respObj` — the decoded scryfall response. -/
structure RespObj where
  name : String
  prices : PricesObj
  set_name : String
  deriving DecidableEq, Repr

/-- The outcome of `rh.cardAPIClient.Get` followed by `dec.Decode`:
the GET itself can fail, the decode can fail, or a `respObj` results. -/
inductive GetOutcome where
  | transportErr (msg : String)
  | decodeErr (msg : String)
  | ok (obj : RespObj)
  deriving DecidableEq, Repr

/-- The external world as seen by `processRow`:
* `parseTime` is `time.Parse(time.RFC3339, ·)` (`none` = parse error),
  returning seconds;
* `getResult` is the combined outcome of the scryfall GET on a URL and the
  JSON decode of its body;
* `writeResult cell value` is the error of
  `valuesSvc.Update(sheetKey, cell, ...)` (`none` = success);
* `nowString` is `time.Now().Format(time.RFC3339)` at the timestamp write. -/
structure RowEnv where
  parseTime : String → Option Int
  getResult : String → GetOutcome
  writeResult : String → String → Option String
  nowString : String

/-- From row.go: `rowHandler` (the `valuesSvc`, `cardAPIClient` and `baseURL`
fields are realized by `RowEnv` and `buildURL`).  In `run`, `oneDayAgo` is
set to `time.Now().Add(-24 * time.Hour)`, i.e. now - 86400 seconds. -/
structure RowHandler where
  sheetKey : String
  rows : List (List Cell)
  cardNameCol : Nat
  setCodeCol : Nat
  foilCol : Nat
  lastUpdatedCol : Nat
  priceCol : Nat
  oneDayAgo : Int

/-- An externally visible action attempted by the program, in order:
an HTTP GET of a URL, or a sheet cell update with a value. -/
inductive Effect where
  | get (url : String)
  | write (cell : String) (value : String)
  deriving DecidableEq, Repr

/-- row.go lines 28-37: the freshness guard.  True when the row has a cell at
the last-updated column, that cell is a string, the string parses, and the
parsed time is strictly after `rh.oneDayAgo` (`when.After(rh.oneDayAgo)`). -/
def freshnessSkip (env : RowEnv) (rh : RowHandler) (row : List Cell) : Bool :=
  match row[rh.lastUpdatedCol]? with
  | some c =>
    match asString c with
    | some lastUpdated =>
      match env.parseTime lastUpdated with
      | some w => decide (rh.oneDayAgo < w)
      | none => false
    | none => false
  | none => false

/-- The Go local variable `foil` in `processRow`: declared in the `var` block
at row.go line 40 and never assigned afterwards, so it keeps the zero value
`false` when read at line 82. -/
def goFoilFlag : Bool := false

/-- row.go lines 82-87: `if foil { price = obj.Prices.USDFoil } else
{ price = obj.Prices.USD }`. -/
def selectedPrice (fl : Bool) (p : PricesObj) : String :=
  if fl then p.usd_foil else p.usd

/-- row.go lines 43-107: everything in `processRow` after the freshness
guard, given the row's cells.  Returns the attempted effects in order and
the function's `error` result. -/
def processRowBody (env : RowEnv) (rh : RowHandler) (rownum : Nat) (row : List Cell) :
    List Effect × Except String Unit :=
  match row[rh.cardNameCol]? with
  | none =>
    -- `len(row) <= rh.cardNameCol`: no card name in this row.
    ([], .ok ())
  | some cnCell =>
    match asString cnCell with
    | none =>
      -- The Card Name cell is somehow not a string.
      ([], .ok ())
    | some cardName =>
      -- `if len(row) > rh.setCodeCol { setCode, _ = row[rh.setCodeCol].(string) }`
      let setCode := ((row[rh.setCodeCol]?).bind asString).getD ""
      let u := buildURL cardName setCode
      match env.getResult u with
      | .transportErr e => ([.get u], .error ("querying scryfall API: " ++ e))
      | .decodeErr e => ([.get u], .error ("JSON-decoding scryfall response: " ++ e))
      | .ok obj =>
        let price := selectedPrice goFoilFlag obj.prices
        let cell := cellName rownum rh.priceCol
        match env.writeResult cell price with
        | some e =>
          ([.get u, .write cell price],
            .error ("setting price in cell " ++ cell ++ ": " ++ e))
        | none =>
          let cell2 := cellName rownum rh.lastUpdatedCol
          match env.writeResult cell2 env.nowString with
          | some e =>
            ([.get u, .write cell price, .write cell2 env.nowString],
              .error ("setting last-updated time in cell " ++ cell2 ++ ": " ++ e))
          | none =>
            ([.get u, .write cell price, .write cell2 env.nowString], .ok ())

/-- row.go `processRow`: the freshness guard followed by the body. -/
def processRow (env : RowEnv) (rh : RowHandler) (rownum : Nat) :
    List Effect × Except String Unit :=
  let row := (rh.rows[rownum]?).getD []
  if freshnessSkip env rh row then ([], .ok ())
  else processRowBody env rh rownum row

/-- main.go lines 177-183: `for rownum := 1; rownum < len(resp.Values);
rownum++ { if err := rh.processRow(...); err != nil { return err } }`,
generalized to an arbitrary starting row.  Accumulates the effects of the
rows attempted, stopping at the first error. -/
def processFrom (env : RowEnv) (rh : RowHandler) (rownum : Nat) :
    List Effect × Except String Unit :=
  if _h : rownum < rh.rows.length then
    match processRow env rh rownum with
    | (effs, .error e) => (effs, .error e)
    | (effs, .ok ()) =>
      let rest := processFrom env rh (rownum + 1)
      (effs ++ rest.1, rest.2)
  else ([], .ok ())
termination_by rh.rows.length - rownum

/-- One character of `strings.ToLower`: ASCII upper-case letters map to
lower case.  (Go lowers the full Unicode range; the five keys looked up are
ASCII, so only the ASCII mapping can influence a successful lookup.) -/
def lowerChar (c : Char) : Char :=
  if 65 ≤ c.toNat ∧ c.toNat ≤ 90 then Char.ofNat (c.toNat + 32) else c

/-- `strings.ToLower` on a heading cell. -/
def lowerStr (s : String) : String := ⟨s.data.map lowerChar⟩

/-- main.go lines 118-126: the `columnHeadings` map.  Every string cell of
the header row is lower-cased and mapped to its index, later entries
overwriting earlier ones; `headingLookup header key` is the resulting map
lookup: the last index whose lower-cased heading equals `key`. -/
def headingLookup (headerRow : List Cell) (key : String) : Option Nat :=
  (List.range headerRow.length).foldl
    (fun acc i =>
      match headerRow[i]? with
      | some (Cell.str s) => if lowerStr s == key then some i else acc
      | _ => acc)
    none

/-- The five column indices extracted from the header row by `run`. -/
structure ColumnConfig where
  cardNameCol : Nat
  setCodeCol : Nat
  foilCol : Nat
  lastUpdatedCol : Nat
  priceCol : Nat
  deriving DecidableEq, Repr

/-- main.go lines 128-147: the five heading lookups, in program order, each
failing with the error message of the corresponding `return`. -/
def parseHeader (headerRow : List Cell) : Except String ColumnConfig :=
  match headingLookup headerRow "card name" with
  | none => .error "no \"Card name\" column"
  | some cardNameCol =>
  match headingLookup headerRow "set code" with
  | none => .error "no \"Set code\" column"
  | some setCodeCol =>
  match headingLookup headerRow "foil" with
  | none => .error "no \"Foil\" column"
  | some foilCol =>
  match headingLookup headerRow "last updated" with
  | none => .error "no \"Last updated\" column"
  | some lastUpdatedCol =>
  match headingLookup headerRow "price" with
  | none => .error "no \"Price\" column"
  | some priceCol =>
    .ok { cardNameCol := cardNameCol, setCodeCol := setCodeCol, foilCol := foilCol,
          lastUpdatedCol := lastUpdatedCol, priceCol := priceCol }

/-- The five recognized (lower-cased) column headings, in the order `run`
checks them. -/
def requiredHeadings : List String :=
  ["card name", "set code", "foil", "last updated", "price"]

/-- The error message `run` returns when the given required heading is
missing. -/
def missingMsg : String → String
  | "card name" => "no \"Card name\" column"
  | "set code" => "no \"Set code\" column"
  | "foil" => "no \"Foil\" column"
  | "last updated" => "no \"Last updated\" column"
  | "price" => "no \"Price\" column"
  | _ => ""

/-- main.go `run`, from the zero-rows check onward (flag parsing, credential
loading and service construction are external): reject an empty sheet, build
the column map from row 0, abort if a required heading is missing, then
process data rows from row 1. -/
def runModel (env : RowEnv) (sheetKey : String) (oneDayAgoVal : Int)
    (rows : List (List Cell)) : List Effect × Except String Unit :=
  if rows.length == 0 then ([], .error "zero rows in spreadsheet")
  else
    match parseHeader (rows.headD []) with
    | .error e => ([], .error e)
    | .ok cfg =>
      let rh : RowHandler :=
        { sheetKey := sheetKey, rows := rows,
          cardNameCol := cfg.cardNameCol, setCodeCol := cfg.setCodeCol,
          foilCol := cfg.foilCol, lastUpdatedCol := cfg.lastUpdatedCol,
          priceCol := cfg.priceCol, oneDayAgo := oneDayAgoVal }
      processFrom env rh 1

/-! ## The rate-limited round tripper (transport.go)

`rateLimitedRoundTripper.RoundTrip` calls `rt.limiter.Wait(req.Context())`,
and on a wait error returns
`errors.Wrap(err, "waiting for the limiter to let us through")` without
touching any transport; otherwise it delegates to `rt.next`, or to
`http.DefaultTransport` when `rt.next` is nil, and returns its result
unchanged. -/

/-- The state of a request's context, as far as `limiter.Wait` observes it. -/
inductive CtxState where
  | live
  | canceled
  | deadlineExceeded
  deriving DecidableEq, Repr

/-- Modelled from the spec (the limiter is `golang.org/x/time/rate.Limiter`,
a dependency whose code is not part of this repository): `Wait` "honor[s] a
cancellation signal (if the caller's deadline is exceeded or the caller
cancels, the wait fails immediately ... and the request is never forwarded)";
otherwise it blocks until admission and returns no error.  The error text is
the context's error. -/
def limiterWaitErr : CtxState → Option String
  | .live => none
  | .canceled => some "context canceled"
  | .deadlineExceeded => some "context deadline exceeded"

/-- An HTTP request: its context state plus an opaque payload standing for
everything else (`RoundTrip` never modifies the request). -/
structure Request where
  ctx : CtxState
  payload : String
  deriving DecidableEq, Repr

/-- An HTTP response, opaque to the round tripper. -/
structure Response where
  body : String
  deriving DecidableEq, Repr

/-- A wrapped transport: what `next.RoundTrip` does. -/
def Transport : Type := Request → Except String Response

/-- transport.go lines 27-38: `rateLimitedRoundTripper.RoundTrip`.
`next? = none` models a nil `next` field, in which case
`http.DefaultTransport` (here `defaultTransport`) is used. -/
def roundTrip (defaultTransport : Transport) (next? : Option Transport)
    (req : Request) : Except String Response :=
  match limiterWaitErr req.ctx with
  | some e => .error ("waiting for the limiter to let us through: " ++ e)
  | none =>
    match next? with
    | some f => f req
    | none => defaultTransport req

/-! ## The rate limiter's admission schedule (main.go lines 66-69)

Modelled from the spec: `golang.org/x/time/rate` is a dependency, not part of
this repository.  Per the spec, each channel's limiter is "a token-bucket-like
counter with a refill interval and burst size", used here with burst 1, and
the gate "blocks (does not drop) callers until their turn".  With burst 1 a
caller arriving at time `a` is admitted at `a` if the limiter was never used,
and otherwise no earlier than one interval after the previous admission.
Arrival times are an arbitrary sequence, covering both sequential and
concurrent (arbitrarily interleaved) callers sharing one limiter. -/

/-- Admission time of one caller: its arrival time, delayed until one full
interval `I` after the previous admission (if any). -/
def waitAdmit (I : Nat) (last : Option Nat) (arrival : Nat) : Nat :=
  match last with
  | none => arrival
  | some l => max arrival (l + I)

/-- The admission times of a sequence of callers arriving at the given times
and sharing one limiter whose last admission is `last`. -/
def admissionTimes (I : Nat) (last : Option Nat) : List Nat → List Nat
  | [] => []
  | a :: rest =>
    let t := waitAdmit I last a
    t :: admissionTimes I (some t) rest

/-- main.go line 67: `cardAPILimiter = rate.NewLimiter(10, 1)` — 10 events
per second with burst 1, i.e. one admission per 100 ms. -/
def cardAPIEventsPerSecond : Nat := 10

/-- main.go line 68: `ssAPILimiter = rate.NewLimiter(1, 1)` — 1 event per
second with burst 1. -/
def ssAPIEventsPerSecond : Nat := 1

/-- Minimum admission spacing of the pricing channel, in milliseconds. -/
def cardAPIIntervalMs : Nat := 1000 / cardAPIEventsPerSecond

/-- Minimum admission spacing of the storage channel, in milliseconds. -/
def ssAPIIntervalMs : Nat := 1000 / ssAPIEventsPerSecond

/-! ## Concrete fixtures

Small closed instances used to evaluate the definitions on concrete inputs:
a header row with the five required headings in columns 0-4, data rows, and
environments whose remote calls have fixed outcomes. -/

/-- Header row: the five recognized headings, in columns 0 through 4. -/
def headerRow5 : List Cell :=
  [Cell.str "Card Name", Cell.str "Set Code", Cell.str "Foil",
   Cell.str "Last Updated", Cell.str "Price"]

/-- An environment where the card lookup fails at transport level and
time strings never parse. -/
def envOffline : RowEnv :=
  { parseTime := fun _ => none,
    getResult := fun _ => GetOutcome.transportErr "offline",
    writeResult := fun _ _ => none,
    nowString := "2026-10-11T12:00:00Z" }

/-- An environment where `"2026-01-01T00:00:00Z"` parses to time 1000 and
everything else fails to parse; lookups fail at transport level. -/
def envParse1000 : RowEnv :=
  { parseTime := fun s => if s == "2026-01-01T00:00:00Z" then some 1000 else none,
    getResult := fun _ => GetOutcome.transportErr "offline",
    writeResult := fun _ _ => none,
    nowString := "2026-10-11T12:00:00Z" }

/-- The scryfall quote used for the foil-price evaluation: distinct `usd`
and `usd_foil` values. -/
def respFoil : RespObj :=
  { name := "Giant Killer",
    prices := { usd := "0.25", usd_foil := "1.50", usd_etched := "" },
    set_name := "Throne of Eldraine" }

/-- An environment where every lookup succeeds with `respFoil` and every
write succeeds. -/
def envQuote : RowEnv :=
  { parseTime := fun _ => none,
    getResult := fun _ => GetOutcome.ok respFoil,
    writeResult := fun _ _ => none,
    nowString := "2026-10-11T12:00:00Z" }

/-- A handler whose single data row names "Giant Killer" with an empty set
code and a truthy (boolean `true`) foil cell. -/
def rhFoil : RowHandler :=
  { sheetKey := "sheet", rows :=
      [headerRow5,
       [Cell.str "Giant Killer", Cell.str "", Cell.boolean true, Cell.str "", Cell.str ""]],
    cardNameCol := 0, setCodeCol := 1, foilCol := 2, lastUpdatedCol := 3,
    priceCol := 4, oneDayAgo := 0 }

/-- The `rhFoil` data row with a false foil cell instead. -/
def rowNonFoil : List Cell :=
  [Cell.str "Giant Killer", Cell.str "", Cell.boolean false, Cell.str "", Cell.str ""]

/-- Like `rhFoil` but with a false foil cell: the data row differs from
`rhFoil`'s only in the foil-column value. -/
def rhNonFoil : RowHandler := { rhFoil with rows := [headerRow5, rowNonFoil] }

/-- A data row last updated at `"2026-01-01T00:00:00Z"` (time 1000 per
`envParse1000`). -/
def rowUpdated1000 : List Cell :=
  [Cell.str "Name", Cell.str "", Cell.boolean false,
   Cell.str "2026-01-01T00:00:00Z", Cell.str ""]

/-- A handler whose data row was last updated at time 1000 (per
`envParse1000`), against a cutoff `oneDayAgo = 500`: fresh, to be skipped. -/
def rhFresh : RowHandler :=
  { rhFoil with rows := [headerRow5, rowUpdated1000], oneDayAgo := 500 }

/-- Like `rhFresh` but with cutoff `oneDayAgo = 1000`: the row's timestamp
is not strictly after the cutoff, so the row is processed. -/
def rhStale : RowHandler := { rhFresh with oneDayAgo := 1000 }

/-- A handler whose data row has a number where the card name should be. -/
def rhNumName : RowHandler :=
  { rhFoil with rows := [headerRow5, [Cell.num 7, Cell.str "eld"]] }

/-- A second data row, naming another card. -/
def rowElves : List Cell :=
  [Cell.str "Llanowar Elves", Cell.str "", Cell.boolean false, Cell.str "", Cell.str ""]

/-- A sheet whose two data rows both name real cards; used for the
sequential-driver evaluation (with `envOffline`, row 1 already fails). -/
def rhTwoRows : RowHandler :=
  { rhFoil with rows := [headerRow5, rowNonFoil, rowElves] }

/-- A sheet (header plus rows) lacking the "price" heading. -/
def rowsNoPrice : List (List Cell) :=
  [[Cell.str "Card Name", Cell.str "Set Code", Cell.str "Foil", Cell.str "Last Updated"],
   [Cell.str "Giant Killer", Cell.str "", Cell.boolean false, Cell.str ""]]

/-- A default transport for the round-tripper fixtures. -/
def dfltTransport : Transport := fun _ => .ok { body := "from default transport" }

/-- A wrapped transport for the round-tripper fixtures. -/
def nextTransport : Transport := fun _ => .ok { body := "from next" }

/-! ## Helper lemmas -/

theorem char_toNat_ofNat (n : Nat) (h : n < 55296) : (Char.ofNat n).toNat = n := by
  have hv : n.isValidChar := Or.inl h
  simp [Char.ofNat, hv, Char.ofNatAux, Char.toNat, UInt32.toNat, BitVec.toNat_ofNatLt]

theorem colName_lt {col : Nat} (h : col < 26) :
    colName col = String.singleton (Char.ofNat (col + 65)) := by
  rw [colName.eq_def, dif_pos h]

theorem colName_ge {col : Nat} (h : ¬ col < 26) :
    colName col = colName (col / 26 - 1) ++ colName (col % 26) := by
  rw [colName.eq_def, dif_neg h]

theorem colVal_colName (col : Nat) : colVal (colName col) = col + 1 := by
  induction col using Nat.strong_induction_on with
  | _ col ih =>
    by_cases h : col < 26
    · rw [colName_lt h]
      simp only [colVal, String.data_singleton, List.foldl_cons, List.foldl_nil, colStep]
      rw [char_toNat_ofNat _ (by omega)]
      omega
    · have hdiv : col / 26 - 1 < col := by
        have : col / 26 < col := Nat.div_lt_self (by omega) (by omega)
        omega
      have h2 : col % 26 < 26 := Nat.mod_lt _ (by omega)
      rw [colName_ge h, colName_lt h2]
      simp only [colVal, String.data_append, List.foldl_append, String.data_singleton,
        List.foldl_cons, List.foldl_nil]
      have h1 : List.foldl colStep 0 (colName (col / 26 - 1)).data = (col / 26 - 1) + 1 :=
        ih (col / 26 - 1) hdiv
      rw [h1, colStep, char_toNat_ofNat _ (by omega)]
      omega

theorem colNumber_colName (col : Nat) : colNumber (colName col) = col := by
  rw [colNumber, colVal_colName]
  omega

/-! ## C2: the cell-address function -/

/-- C2 (counterexample): the claim's concrete examples are wrong.
`address(0,25)` is `"Z1"`, not `"A26"`, and `address(0,26)` is `"AA1"`,
not `"AB1"`: column 25 is still the single letter Z, and column 26 is the
first two-letter name AA. -/
theorem cellName_claimed_values_false :
    cellName 0 25 ≠ "A26" ∧ cellName 0 26 ≠ "AB1" := by
  constructor <;> simp [cellName, colName] <;> decide

/-- C2 (amended): `cellName` is a pure function of `(row, col)`; it appends
the one-based row number to the base-26 alphabetic column name; the column
name is the bijective base-26 numeral of `col` (A, ..., Z, AA, AB, ...,
shown by the inverse `colNumber` round-tripping for every `col`, so
multi-letter names for `col ≥ 26` are handled); and
`address(0,0) = "A1"`, while the claim's other examples come out as
`address(0,25) = "Z1"`, `address(0,26) = "AA1"` (and `"A26"` is
`address(25,0)`). -/
theorem cellName_spec :
    (∀ row col, cellName row col = colName col ++ toString (row + 1)) ∧
    (∀ col, colNumber (colName col) = col) ∧
    cellName 0 0 = "A1" ∧ cellName 0 25 = "Z1" ∧ cellName 0 26 = "AA1" ∧
    cellName 25 0 = "A26" := by
  refine ⟨fun row col => rfl, colNumber_colName, ?_, ?_, ?_, ?_⟩ <;>
    simp [cellName, colName] <;> rfl

/-! ## C3: the freshness guard -/

/-- C3: if the row's last-updated cell is a string that parses to a time
strictly after `oneDayAgo` (= now minus 24 hours), `processRow` returns
success with no effect at all; if the parsed time is at or before that bound
(e.g. exactly 24h+1s old), the freshness guard does not fire and processing
proceeds to the body (name check, lookup, writes). -/
theorem processRow_freshness (env : RowEnv) (rh : RowHandler) (rownum : Nat)
    (s : String) (t : Int)
    (hcell : ((rh.rows[rownum]?).getD [])[rh.lastUpdatedCol]? = some (Cell.str s))
    (hparse : env.parseTime s = some t) :
    (rh.oneDayAgo < t → processRow env rh rownum = ([], .ok ())) ∧
    (t ≤ rh.oneDayAgo →
      processRow env rh rownum =
        processRowBody env rh rownum ((rh.rows[rownum]?).getD [])) := by
  refine ⟨fun ht => ?_, fun ht => ?_⟩
  · simp [processRow, freshnessSkip, hcell, asString, hparse, ht]
  · have hnlt : ¬ rh.oneDayAgo < t := by omega
    simp [processRow, freshnessSkip, hcell, asString, hparse, hnlt]

/-- C3 witness: with `envParse1000`, the timestamp in the data row parses to
time 1000.  Against cutoff 500 (`rhFresh`) the row is skipped outright;
against cutoff 1000 (`rhStale`, the timestamp not strictly newer) the body
runs. -/
theorem processRow_freshness_witness :
    processRow envParse1000 rhFresh 1 = ([], .ok ()) ∧
    processRow envParse1000 rhStale 1 =
      processRowBody envParse1000 rhStale 1 ((rhStale.rows[1]?).getD []) :=
  ⟨(processRow_freshness envParse1000 rhFresh 1 "2026-01-01T00:00:00Z" 1000
      (by decide) (by decide)).1 (by decide),
   (processRow_freshness envParse1000 rhStale 1 "2026-01-01T00:00:00Z" 1000
      (by decide) (by decide)).2 (by decide)⟩

/-! ## C4: the name-presence guard -/

/-- C4: a row not skipped by the freshness guard whose card-name cell is
absent (including rows too short to reach the index) or not a string is
silently skipped: no lookup, no write, result success. -/
theorem processRow_missing_name (env : RowEnv) (rh : RowHandler) (rownum : Nat)
    (hfresh : freshnessSkip env rh ((rh.rows[rownum]?).getD []) = false)
    (hname : (((rh.rows[rownum]?).getD [])[rh.cardNameCol]?).bind asString = none) :
    processRow env rh rownum = ([], .ok ()) := by
  simp only [processRow, hfresh, Bool.false_eq_true, if_false]
  cases hc : ((rh.rows[rownum]?).getD [])[rh.cardNameCol]? with
  | none => simp [processRowBody, hc]
  | some c =>
    rw [hc] at hname
    simp only [Option.some_bind] at hname
    simp [processRowBody, hc, hname]

/-- C4 witness: the data row of `rhNumName` has a number in the card-name
column; `processRow` does nothing and succeeds. -/
theorem processRow_missing_name_witness :
    processRow envOffline rhNumName 1 = ([], .ok ()) :=
  processRow_missing_name envOffline rhNumName 1 (by decide) (by decide)

/-! ## C5: the lookup request -/

/-- Every GET effect of `processRowBody` targets the URL built from the
row's card name and set code. -/
theorem get_mem_processRowBody {env : RowEnv} {rh : RowHandler} {rownum : Nat}
    {row : List Cell} {u : String}
    (hu : Effect.get u ∈ (processRowBody env rh rownum row).1) :
    ∃ cardName, row[rh.cardNameCol]? = some (Cell.str cardName) ∧
      u = buildURL cardName (((row[rh.setCodeCol]?).bind asString).getD "") := by
  simp only [processRowBody] at hu
  split at hu
  · simp at hu
  · rename_i cnCell heq
    split at hu
    · simp at hu
    · rename_i cardName heqAs
      have hcn : row[rh.cardNameCol]? = some (Cell.str cardName) := by
        cases cnCell with
        | str s =>
          rw [show asString (Cell.str s) = some s from rfl] at heqAs
          cases heqAs
          exact heq
        | boolean b => simp [asString] at heqAs
        | num n => simp [asString] at heqAs
      refine ⟨cardName, hcn, ?_⟩
      split at hu <;> try split at hu <;> try split at hu
      all_goals simp at hu
      all_goals exact hu

/-- C5: (1) whenever `processRow` performs a lookup, the GET URL is the fixed
named-card endpoint with `exact=` the row's card name and `set=` its set code
(the empty string when the set-code cell is absent or not a string);
(2) the built query carries `set` exactly when the set code is non-empty;
(3) for the data row `["Giant Killer", "", false, "", ""]` the one GET issued
is `exact=Giant+Killer` with no `set` parameter. -/
theorem processRow_lookup_request (env : RowEnv) (rh : RowHandler) (rownum : Nat) :
    (∀ u, Effect.get u ∈ (processRow env rh rownum).1 →
      ∃ cardName,
        ((rh.rows[rownum]?).getD [])[rh.cardNameCol]? = some (Cell.str cardName) ∧
        u = buildURL cardName
          (((((rh.rows[rownum]?).getD [])[rh.setCodeCol]?).bind asString).getD "")) ∧
    (∀ nm, buildURL nm "" = namedCardAPIEndpoint ++ "?" ++ ("exact=" ++ queryEscape nm)) ∧
    (∀ nm sc, sc ≠ "" → buildURL nm sc =
      namedCardAPIEndpoint ++ "?" ++
        ("exact=" ++ queryEscape nm ++ "&" ++ ("set=" ++ queryEscape sc))) ∧
    (processRow envOffline rhNonFoil 1).1 =
      [Effect.get "https://api.scryfall.com/cards/named?exact=Giant+Killer"] := by
  refine ⟨?_, fun nm => rfl, fun nm sc hsc => ?_, by decide⟩
  · intro u hu
    unfold processRow at hu
    by_cases hf : freshnessSkip env rh ((rh.rows[rownum]?).getD [])
    · simp [hf] at hu
    · rw [if_neg hf] at hu
      exact get_mem_processRowBody hu
  · have hb : (sc == "") = false := by simp [hsc]
    simp only [buildURL, hb, Bool.false_eq_true, if_false]
    rfl

/-- C5 witness: the universal part applied to the concrete "Giant Killer"
run of part (3): the GET URL is the one built from card name
"Giant Killer" and empty set code. -/
theorem processRow_lookup_request_witness :
    ∃ cardName,
      ((rhNonFoil.rows[1]?).getD [])[rhNonFoil.cardNameCol]? = some (Cell.str cardName) ∧
      "https://api.scryfall.com/cards/named?exact=Giant+Killer" =
        buildURL cardName
          (((((rhNonFoil.rows[1]?).getD [])[rhNonFoil.setCodeCol]?).bind asString).getD "") :=
  (processRow_lookup_request envOffline rhNonFoil 1).1
    "https://api.scryfall.com/cards/named?exact=Giant+Killer" (by decide)

/-! ## C6: missing required heading -/

/-- If any required heading is absent from the header, `parseHeader` fails
with the message naming (the first such) missing heading. -/
theorem parseHeader_missing (hdr : List Cell) (k : String)
    (hk : k ∈ requiredHeadings) (hmiss : headingLookup hdr k = none) :
    ∃ m, m ∈ requiredHeadings ∧ headingLookup hdr m = none ∧
      parseHeader hdr = .error (missingMsg m) := by
  unfold parseHeader
  cases h1 : headingLookup hdr "card name" with
  | none => exact ⟨"card name", by simp [requiredHeadings], h1, rfl⟩
  | some c1 =>
  cases h2 : headingLookup hdr "set code" with
  | none => exact ⟨"set code", by simp [requiredHeadings], h2, rfl⟩
  | some c2 =>
  cases h3 : headingLookup hdr "foil" with
  | none => exact ⟨"foil", by simp [requiredHeadings], h3, rfl⟩
  | some c3 =>
  cases h4 : headingLookup hdr "last updated" with
  | none => exact ⟨"last updated", by simp [requiredHeadings], h4, rfl⟩
  | some c4 =>
  cases h5 : headingLookup hdr "price" with
  | none => exact ⟨"price", by simp [requiredHeadings], h5, rfl⟩
  | some c5 =>
    exfalso
    simp only [requiredHeadings, List.mem_cons, List.mem_singleton] at hk
    rcases hk with rfl | rfl | rfl | rfl | rfl | hk
    · rw [hmiss] at h1; cases h1
    · rw [hmiss] at h2; cases h2
    · rw [hmiss] at h3; cases h3
    · rw [hmiss] at h4; cases h4
    · rw [hmiss] at h5; cases h5
    · simp at hk

/-- C6: if the header row (row 0) lacks any of the five recognized headings,
the run aborts with the error naming a missing heading and performs no
effect: no data row is processed. -/
theorem run_missing_heading (env : RowEnv) (sheetKey : String) (oneDayAgoVal : Int)
    (rows : List (List Cell)) (hne : rows ≠ [])
    (k : String) (hk : k ∈ requiredHeadings)
    (hmiss : headingLookup (rows.headD []) k = none) :
    ∃ m, m ∈ requiredHeadings ∧ headingLookup (rows.headD []) m = none ∧
      runModel env sheetKey oneDayAgoVal rows = ([], .error (missingMsg m)) := by
  obtain ⟨m, hm, hmn, hp⟩ := parseHeader_missing (rows.headD []) k hk hmiss
  refine ⟨m, hm, hmn, ?_⟩
  unfold runModel
  have hlen : (rows.length == 0) = false := by
    cases rows with
    | nil => simp at hne
    | cons a l => simp
  rw [hlen]
  simp only [Bool.false_eq_true, if_false, hp]

/-- C6 witness: `rowsNoPrice` has a header without a "Price" heading; the run
fails with the corresponding message and touches nothing. -/
theorem run_missing_heading_witness :
    ∃ m, m ∈ requiredHeadings ∧ headingLookup (rowsNoPrice.headD []) m = none ∧
      runModel envOffline "sheet" 0 rowsNoPrice = ([], .error (missingMsg m)) :=
  run_missing_heading envOffline "sheet" 0 rowsNoPrice (by decide) "price"
    (by decide) (by decide)

/-! ## C7: the sequential driver -/

/-- If rows `s..k-1` succeed and row `k` fails with `e`, the driver loop
started at `s` attempts exactly rows `s..k` in ascending order (their effects
accumulate in that order) and surfaces `e`. -/
theorem processFrom_error (env : RowEnv) (rh : RowHandler) (e : String) :
    ∀ n s k, s ≤ k → k - s = n → k < rh.rows.length →
      (∀ i, s ≤ i → i < k → (processRow env rh i).2 = .ok ()) →
      (processRow env rh k).2 = .error e →
      processFrom env rh s =
        ((List.range' s (k - s + 1)).flatMap fun i => (processRow env rh i).1, .error e) := by
  intro n
  induction n with
  | zero =>
    intro s k hsk h0 hk hok herr
    obtain rfl : s = k := by omega
    rw [processFrom.eq_def, dif_pos hk]
    cases hpr : processRow env rh s with
    | mk effs res =>
      rw [hpr] at herr
      simp only at herr
      subst herr
      simp [hpr, show s - s = 0 by omega]
  | succ n ih =>
    intro s k hsk hn hk hok herr
    have hslt : s < k := by omega
    rw [processFrom.eq_def, dif_pos (by omega : s < rh.rows.length)]
    cases hpr : processRow env rh s with
    | mk effs res =>
      have hres : res = .ok () := by
        have hthis := hok s (Nat.le_refl s) hslt
        rw [hpr] at hthis
        exact hthis
      subst hres
      have hrec := ih (s + 1) k (by omega) (by omega) hk
        (fun i hi1 hi2 => hok i (by omega) hi2) herr
      simp only [hpr]
      rw [hrec]
      rw [show k - s + 1 = (k - (s + 1) + 1) + 1 by omega, List.range'_succ]
      simp [hpr, List.range'_succ, List.append_assoc]

/-- If every row from `s` on succeeds, the driver loop started at `s`
attempts all of them in ascending order and returns success. -/
theorem processFrom_ok (env : RowEnv) (rh : RowHandler) :
    ∀ n s, rh.rows.length - s = n →
      (∀ i, s ≤ i → i < rh.rows.length → (processRow env rh i).2 = .ok ()) →
      processFrom env rh s =
        ((List.range' s (rh.rows.length - s)).flatMap fun i => (processRow env rh i).1,
          .ok ()) := by
  intro n
  induction n with
  | zero =>
    intro s h0 hok
    rw [processFrom.eq_def, dif_neg (by omega)]
    simp [show rh.rows.length - s = 0 by omega]
  | succ n ih =>
    intro s hn hok
    have hs : s < rh.rows.length := by omega
    rw [processFrom.eq_def, dif_pos hs]
    cases hpr : processRow env rh s with
    | mk effs res =>
      have hres : res = .ok () := by
        have hthis := hok s (Nat.le_refl s) hs
        rw [hpr] at hthis
        exact hthis
      subst hres
      have hrec := ih (s + 1) (by omega) (fun i hi1 hi2 => hok i (by omega) hi2)
      simp only [hpr]
      rw [hrec]
      rw [show rh.rows.length - s = (rh.rows.length - (s + 1)) + 1 by omega,
        List.range'_succ]
      simp [hpr]

/-- C7: the driver processes data rows 1..N strictly sequentially in
ascending index order.  If the first failure is at row `k`, exactly rows
1..k were attempted (their effects — including writes already made — stand,
nothing is rolled back), no higher row is attempted, and the run surfaces
row `k`'s error; if no row fails, all rows 1..N are attempted in order. -/
theorem run_sequential_abort (env : RowEnv) (rh : RowHandler) :
    (∀ k e, 1 ≤ k → k < rh.rows.length →
      (∀ i, 1 ≤ i → i < k → (processRow env rh i).2 = .ok ()) →
      (processRow env rh k).2 = .error e →
      processFrom env rh 1 =
        ((List.range' 1 k).flatMap fun i => (processRow env rh i).1, .error e)) ∧
    ((∀ i, 1 ≤ i → i < rh.rows.length → (processRow env rh i).2 = .ok ()) →
      processFrom env rh 1 =
        ((List.range' 1 (rh.rows.length - 1)).flatMap fun i => (processRow env rh i).1,
          .ok ())) := by
  constructor
  · intro k e h1 hk hok herr
    have hmain := processFrom_error env rh e (k - 1) 1 k (by omega) (by omega) hk hok herr
    rwa [show k - 1 + 1 = k by omega] at hmain
  · intro hok
    exact processFrom_ok env rh (rh.rows.length - 1) 1 rfl hok

/-- C7 witness: on `rhTwoRows` with the offline environment, row 1's lookup
fails and the run stops having attempted only row 1; with the quoting
environment every row succeeds and rows 1 and 2 are both attempted. -/
theorem run_sequential_abort_witness :
    processFrom envOffline rhTwoRows 1 =
      ((List.range' 1 1).flatMap fun i => (processRow envOffline rhTwoRows i).1,
        .error "querying scryfall API: offline") ∧
    processFrom envQuote rhTwoRows 1 =
      ((List.range' 1 (rhTwoRows.rows.length - 1)).flatMap
          fun i => (processRow envQuote rhTwoRows i).1, .ok ()) :=
  ⟨(run_sequential_abort envOffline rhTwoRows).1 1 "querying scryfall API: offline"
      (Nat.le_refl 1) (by decide) (fun i hi1 hi2 => by omega) (by rfl),
   (run_sequential_abort envQuote rhTwoRows).2
      (fun i hi1 hi2 => by
        have h3 : i < 3 := hi2
        interval_cases i <;> rfl)⟩

/-! ## C8: the rate-limited round tripper -/

/-- C8 (counterexample): on a canceled context the returned error message is
`errors.Wrap`'s "waiting for the limiter to let us through: context
canceled"; the claim's quoted phrase "canceled while waiting for rate
limiter" appears nowhere in it. -/
theorem roundTrip_error_text_counterexample :
    roundTrip dfltTransport none { ctx := CtxState.canceled, payload := "p" } =
      .error "waiting for the limiter to let us through: context canceled" ∧
    ¬ List.IsInfix "canceled while waiting for rate limiter".data
      "waiting for the limiter to let us through: context canceled".data := by
  constructor
  · rfl
  · decide

/-- C8 (amended): when the request's context is canceled or past its
deadline, `RoundTrip` returns an error wrapping the context error with
"waiting for the limiter to let us through" and the wrapped transport is
never invoked (the result is independent of it); when admitted, it delegates
the request unchanged to the wrapped transport — or to the default transport
when none was supplied — and returns exactly its result. -/
theorem roundTrip_spec (df : Transport) (req : Request) :
    (req.ctx ≠ CtxState.live →
      (∀ n1 n2 : Option Transport, roundTrip df n1 req = roundTrip df n2 req) ∧
      (∃ e, limiterWaitErr req.ctx = some e ∧
        roundTrip df none req =
          .error ("waiting for the limiter to let us through: " ++ e))) ∧
    (req.ctx = CtxState.live →
      (∀ f : Transport, roundTrip df (some f) req = f req) ∧
      roundTrip df none req = df req) := by
  constructor
  · intro hne
    cases hc : req.ctx with
    | live => exact absurd hc hne
    | canceled =>
      refine ⟨fun n1 n2 => ?_, "context canceled", rfl, ?_⟩ <;>
        simp [roundTrip, hc, limiterWaitErr]
    | deadlineExceeded =>
      refine ⟨fun n1 n2 => ?_, "context deadline exceeded", rfl, ?_⟩ <;>
        simp [roundTrip, hc, limiterWaitErr]
  · intro hl
    refine ⟨fun f => ?_, ?_⟩ <;> simp [roundTrip, hl, limiterWaitErr]

/-- C8 witness: both halves at concrete requests: a deadline-exceeded
request gives the same error whether a transport is wrapped or not, and a
live request is answered by the wrapped transport (resp. the default). -/
theorem roundTrip_spec_witness :
    roundTrip dfltTransport (some nextTransport) { ctx := CtxState.deadlineExceeded, payload := "p" } =
      roundTrip dfltTransport none { ctx := CtxState.deadlineExceeded, payload := "p" } ∧
    roundTrip dfltTransport (some nextTransport) { ctx := CtxState.live, payload := "p" } =
      nextTransport { ctx := CtxState.live, payload := "p" } ∧
    roundTrip dfltTransport none { ctx := CtxState.live, payload := "p" } =
      dfltTransport { ctx := CtxState.live, payload := "p" } :=
  ⟨((roundTrip_spec dfltTransport { ctx := CtxState.deadlineExceeded, payload := "p" }).1
      (by simp)).1 (some nextTransport) none,
   ((roundTrip_spec dfltTransport { ctx := CtxState.live, payload := "p" }).2 rfl).1
      nextTransport,
   ((roundTrip_spec dfltTransport { ctx := CtxState.live, payload := "p" }).2 rfl).2⟩

/-! ## C9: minimum spacing of limiter admissions -/

/-- Every admission granted after state `some t` is at least `t + I`. -/
theorem admissionTimes_head_ge (I t : Nat) (arrivals : List Nat) :
    ∀ h tl, admissionTimes I (some t) arrivals = h :: tl → t + I ≤ h := by
  cases arrivals with
  | nil => intro h tl hx; cases hx
  | cons a rest =>
    intro h tl hx
    simp only [admissionTimes, waitAdmit] at hx
    cases hx
    omega

/-- C9: through one rate-limited gate, consecutive admission times are at
least the configured interval apart — for any interval, any previous state
and any arrival sequence (arrival sequences model both sequential and
concurrently interleaved callers).  The repository's two channels use
interval 100 ms (pricing: `rate.NewLimiter(10, 1)`) and 1000 ms (storage:
`rate.NewLimiter(1, 1)`), each with burst 1. -/
theorem admission_spacing :
    (∀ I last arrivals k, k + 1 < (admissionTimes I last arrivals).length →
      (admissionTimes I last arrivals).getD k 0 + I ≤
        (admissionTimes I last arrivals).getD (k + 1) 0) ∧
    cardAPIIntervalMs = 100 ∧ ssAPIIntervalMs = 1000 := by
  refine ⟨?_, rfl, rfl⟩
  intro I last arrivals
  induction arrivals generalizing last with
  | nil => intro k hk; simp [admissionTimes] at hk
  | cons a rest ih =>
    intro k hk
    simp only [admissionTimes] at hk ⊢
    cases k with
    | zero =>
      cases hrest : admissionTimes I (some (waitAdmit I last a)) rest with
      | nil =>
        rw [hrest] at hk
        simp at hk
      | cons h tl =>
        have := admissionTimes_head_ge I (waitAdmit I last a) rest h tl hrest
        simp [hrest]
        omega
    | succ k =>
      have := ih (some (waitAdmit I last a)) k (by simpa using hk)
      simpa using this

/-- C9 witness: three simultaneous arrivals through the pricing-channel
interval are admitted 100 ms apart. -/
theorem admission_spacing_witness :
    (admissionTimes 100 none [0, 0, 0]).getD 0 0 + 100 ≤
      (admissionTimes 100 none [0, 0, 0]).getD 1 0 :=
  admission_spacing.1 100 none [0, 0, 0] 0 (by decide)

/-! ## C10: the foil column is never read -/

/-- C10: `processRow` never reads the foil-column cell: changing that cell
to any value changes neither the effects (lookup and writes) nor the result;
and the Go `foil` flag keeps its zero value, so the price selected is always
the standard `usd` price, never `usd_foil`. -/
theorem processRow_foil_noninterference (env : RowEnv) (rh : RowHandler) (rownum : Nat)
    (v : Cell)
    (h1 : rh.foilCol ≠ rh.cardNameCol) (h2 : rh.foilCol ≠ rh.setCodeCol)
    (h3 : rh.foilCol ≠ rh.lastUpdatedCol) :
    processRow env
      { rh with rows :=
          rh.rows.set rownum (((rh.rows[rownum]?).getD []).set rh.foilCol v) }
      rownum = processRow env rh rownum ∧
    goFoilFlag = false ∧
    (∀ p : PricesObj, selectedPrice goFoilFlag p = p.usd) := by
  refine ⟨?_, rfl, fun p => rfl⟩
  by_cases hlen : rownum < rh.rows.length
  · have hrow : ((rh.rows.set rownum
        (((rh.rows[rownum]?).getD []).set rh.foilCol v))[rownum]?).getD [] =
        (((rh.rows[rownum]?).getD []).set rh.foilCol v) := by
      rw [List.getElem?_set_self (by simpa using hlen)]
      rfl
    simp only [processRow, hrow, freshnessSkip, processRowBody,
      List.getElem?_set_ne h1, List.getElem?_set_ne h2, List.getElem?_set_ne h3]
  · have hset : rh.rows.set rownum (((rh.rows[rownum]?).getD []).set rh.foilCol v) =
        rh.rows := List.set_eq_of_length_le (by omega)
    rw [hset]

/-- C10 witness: `rhFoil` and `rhNonFoil` differ exactly in the foil cell of
their data row; `processRow` treats them identically, and the selected price
is the standard one. -/
theorem processRow_foil_noninterference_witness :
    processRow envQuote
      { rhNonFoil with rows :=
          rhNonFoil.rows.set 1 (((rhNonFoil.rows[1]?).getD []).set rhNonFoil.foilCol
            (Cell.boolean true)) } 1 = processRow envQuote rhNonFoil 1 ∧
    goFoilFlag = false ∧
    (∀ p : PricesObj, selectedPrice goFoilFlag p = p.usd) :=
  processRow_foil_noninterference envQuote rhNonFoil 1 (Cell.boolean true)
    (by decide) (by decide) (by decide)

/-! ## C1: foil-price selection (the latent defect) -/

/-- C1: evaluation at the failing input.  The data row's foil cell is the
truthy `true`, the quote has distinct prices `usd = "0.25"` and
`usd_foil = "1.50"`, yet `processRow` writes the standard price `"0.25"` to
the price cell: the Go `foil` variable is declared but never assigned from
the foil column, so the `usd_foil` branch is dead code. -/
theorem processRow_writes_usd_despite_foil :
    ((rhFoil.rows[1]?).getD [])[rhFoil.foilCol]? = some (Cell.boolean true) ∧
    envQuote.getResult (buildURL "Giant Killer" "") = GetOutcome.ok respFoil ∧
    respFoil.prices.usd = "0.25" ∧ respFoil.prices.usd_foil = "1.50" ∧
    processRow envQuote rhFoil 1 =
      ([Effect.get (buildURL "Giant Killer" ""),
        Effect.write (cellName 1 rhFoil.priceCol) "0.25",
        Effect.write (cellName 1 rhFoil.lastUpdatedCol) envQuote.nowString],
        .ok ()) :=
  ⟨rfl, rfl, rfl, rfl, rfl⟩

end Majic

